import Mathlib

/-!
Shallow embedding of the `aiomarketstack` client library
(src/aiomarketstack/__init__.py, src/aiomarketstack/types.py,
src/aiomarketstack/exceptions.py).

Modelling conventions:
* JSON numbers (OHLC prices, volume, split factor, dividend) are carried but
  never computed on by the client, so they are embedded as `Rat`.
* Python strings are Lean `String`s.
* `datetime.date` is a record of year/month/day; `strftime("%Y-%m-%d")` and
  `datetime.fromisoformat(...).date()` are embedded explicitly below.
* Exceptions are values of an explicit `Fault` type; a Python function that
  may raise becomes a function into `Except Fault _`.
* The aiohttp transport is a scripted server: request number `i` receives the
  pair `(status code, parsed JSON body)` given by `server i`.  An
  `aiohttp.ClientSession` is a resource with a `closed` flag: `async with
  session` closes it on exit (aiohttp `ClientSession.__aexit__` calls
  `close()`), and `session.get` raises `RuntimeError("Session is closed")`
  when the session is closed, before any network traffic happens.
-/

namespace Aiomarketstack

/-- A calendar date, embedding Python's `datetime.date` (year 1..9999). -/
structure Date where
  year : Nat
  month : Nat
  day : Nat
deriving DecidableEq, Repr

/-- Number of days in a month, as Python's `datetime` validates it
(Gregorian leap years). -/
def days_in_month (y m : Nat) : Nat :=
  if m = 2 then
    if y % 4 = 0 ∧ (y % 100 ≠ 0 ∨ y % 400 = 0) then 29 else 28
  else if m = 4 ∨ m = 6 ∨ m = 9 ∨ m = 11 then 30
  else 31

/-- The validity predicate Python's `datetime.date` constructor enforces. -/
def ValidDate (d : Date) : Prop :=
  1 ≤ d.year ∧ d.year ≤ 9999 ∧ 1 ≤ d.month ∧ d.month ≤ 12 ∧
    1 ≤ d.day ∧ d.day ≤ days_in_month d.year d.month

instance (d : Date) : Decidable (ValidDate d) := by
  unfold ValidDate; infer_instance

/-- The decimal digit character of `k % 10`. -/
def digitChar (k : Nat) : Char :=
  match k % 10 with
  | 0 => '0' | 1 => '1' | 2 => '2' | 3 => '3' | 4 => '4'
  | 5 => '5' | 6 => '6' | 7 => '7' | 8 => '8' | _ => '9'

/-- Numeric value of a digit character. -/
def digitVal (c : Char) : Nat := c.toNat - 48

/-- Whether a character is a decimal digit. -/
def isDigitChar (c : Char) : Bool := 48 ≤ c.toNat ∧ c.toNat ≤ 57

/-- Embeds `_MarketstackClient._format_date`, i.e. `d.strftime("%Y-%m-%d")`: the year
zero-padded to four digits, month and day to two each. -/
def _format_date (d : Date) : String :=
  String.mk
    [digitChar (d.year / 1000), digitChar (d.year / 100),
     digitChar (d.year / 10), digitChar d.year, '-',
     digitChar (d.month / 10), digitChar d.month, '-',
     digitChar (d.day / 10), digitChar d.day]

/-- Embeds `datetime.fromisoformat(s).date()` on the date-only ISO-8601 form
`YYYY-MM-DD` (the form this client both emits and receives); `none` models
the `ValueError` raised on any malformed input. -/
def fromisoformat_date (s : String) : Option Date :=
  match s.toList with
  | [y1, y2, y3, y4, s1, m1, m2, s2, d1, d2] =>
    if s1 = '-' ∧ s2 = '-' ∧
        (isDigitChar y1 ∧ isDigitChar y2 ∧ isDigitChar y3 ∧ isDigitChar y4 ∧
         isDigitChar m1 ∧ isDigitChar m2 ∧ isDigitChar d1 ∧ isDigitChar d2) then
      let y := digitVal y1 * 1000 + digitVal y2 * 100 + digitVal y3 * 10 + digitVal y4
      let m := digitVal m1 * 10 + digitVal m2
      let d := digitVal d1 * 10 + digitVal d2
      if 1 ≤ y ∧ 1 ≤ m ∧ m ≤ 12 ∧ 1 ≤ d ∧ d ≤ days_in_month y m then
        some ⟨y, m, d⟩
      else none
    else none
  | _ => none

/-- Embeds `RawEod` (types.py): one row as returned by the remote, date still a
string. -/
structure RawEod where
  «open» : Rat
  high : Rat
  low : Rat
  close : Rat
  volume : Rat
  split_factor : Rat
  dividend : Rat
  symbol : String
  exchange : String
  date : String
deriving DecidableEq, Repr

/-- Embeds `Eod` (types.py): the normalized row, date parsed. -/
structure Eod where
  «open» : Rat
  high : Rat
  low : Rat
  close : Rat
  volume : Rat
  split_factor : Rat
  dividend : Rat
  symbol : String
  exchange : String
  date : Date
deriving DecidableEq, Repr

/-- Embeds `Pagination` (types.py). -/
structure Pagination where
  limit : Nat
  offset : Nat
  count : Nat
  total : Nat
deriving DecidableEq, Repr

/-- Embeds `ErrorResponse` (types.py): the error envelope, with its machine code and
its human-readable message (the optional validation context is not used by
the client and is omitted). -/
structure ErrorResponse where
  code : String
  message : String
deriving DecidableEq, Repr

/-- Embeds `EodResponse` (types.py): the parsed JSON body of a response. -/
structure EodResponse where
  pagination : Pagination
  data : List RawEod
  error : Option ErrorResponse
deriving DecidableEq, Repr

/-- The slice of `aiohttp.ClientResponse` the classifier reads. -/
structure ClientResponse where
  status : Nat
deriving DecidableEq, Repr

/-- The exception hierarchy of exceptions.py, one constructor per class;
each carries the transport response, as every `ResponseError.__init__` stores
it. -/
inductive ResponseError where
  | unhandledResponse (resp : ClientResponse)
  | unauthorized (resp : ClientResponse)
  | invalidAccessKey (resp : ClientResponse)
  | missingAccessKey (resp : ClientResponse)
  | inactiveUser (resp : ClientResponse)
  | forbidden (resp : ClientResponse)
  | httpsAccessRestricted (resp : ClientResponse)
  | functionAccessRestricted (resp : ClientResponse)
  | notFound (resp : ClientResponse)
  | invalidApiFunction (resp : ClientResponse)
  | resourceNotFound (resp : ClientResponse)
  | tooManyRequests (resp : ClientResponse)
  | usageLimitReached (resp : ClientResponse)
  | rateLimitReached (resp : ClientResponse)
  | internalError (resp : ClientResponse)
deriving DecidableEq, Repr

/-- Everything a query can raise.  The three `RuntimeError`s of the program
are kept distinct by their distinct messages:
`protocolViolation` is `RuntimeError(f"Unexpected response ... missing an
error.")`, `notInitialized` is `RuntimeError("MarketstackClient must be
initialized within a context manager.")`, and `sessionClosed` is aiohttp's
`RuntimeError("Session is closed")`.  `valueError` is the `ValueError`
raised by `datetime.fromisoformat` on a malformed date string. -/
inductive Fault where
  | apiError (e : ResponseError)
  | protocolViolation
  | notInitialized
  | sessionClosed
  | valueError
deriving DecidableEq, Repr

/-- The inner dictionaries of `err_map` in `_handle_if_error`, as a lookup:
given the (already known) status and the key actually used in the source —
`err_response["message"]` — produce the error, falling back to the
status-level `"default"` entry. -/
def err_map_lookup (resp : ClientResponse) (status : Nat) (key : String) :
    ResponseError :=
  if status = 401 then
    if key = "invalid_access_key" then .invalidAccessKey resp
    else if key = "missing_access_key" then .missingAccessKey resp
    else if key = "inactive_user" then .inactiveUser resp
    else .unauthorized resp
  else if status = 403 then
    if key = "https_access_restricted" then .httpsAccessRestricted resp
    else if key = "function_access_restricted" then .functionAccessRestricted resp
    else .forbidden resp
  else if status = 404 then
    if key = "invalid_api_function" then .invalidApiFunction resp
    else if key = "404_not_found" then .resourceNotFound resp
    else .notFound resp
  else if status = 429 then
    if key = "usage_limit_reached" then .usageLimitReached resp
    else if key = "rate_limit_reached" then .rateLimitReached resp
    else .tooManyRequests resp
  else if status = 500 then .internalError resp
  else .unhandledResponse resp

/-- Whether `resp.status in err_map` holds, i.e. the status is one of the
integer keys of the table. -/
def status_in_err_map (status : Nat) : Bool :=
  status = 401 ∨ status = 403 ∨ status = 404 ∨ status = 429 ∨ status = 500

/-- Embeds `_MarketstackClient._handle_if_error`: return normally on 200; raise the
global default on a status outside the table; raise `RuntimeError` when the
body has no error envelope; otherwise look up `err_response["message"]` in
the status's inner table, falling back to its `"default"`. -/
def _handle_if_error (resp : ClientResponse) (body : EodResponse) :
    Except Fault Unit :=
  let http_code_ok := 200
  if resp.status = http_code_ok then .ok ()
  else if ¬ status_in_err_map resp.status then
    .error (.apiError (.unhandledResponse resp))
  else
    match body.error with
    | none => .error .protocolViolation
    | some err_response =>
        .error (.apiError (err_map_lookup resp resp.status err_response.message))

/-- Embeds `MarketstackPlan` (an `IntEnum`). -/
inductive MarketstackPlan where
  | FREE
  | BASIC
  | PROFESSIONAL
  | BUSINESS
deriving DecidableEq, Repr

/-- The integer value of the `IntEnum`, used by `plan < MarketstackPlan.BASIC`. -/
def MarketstackPlan.toNat : MarketstackPlan → Nat
  | .FREE => 0
  | .BASIC => 1
  | .PROFESSIONAL => 2
  | .BUSINESS => 3

/-- Embeds the constant `HTTP_BASE_URL`. -/
def HTTP_BASE_URL : String := "http://api.marketstack.com/v1/eod"

/-- Embeds the constant `HTTPS_BASE_URL`. -/
def HTTPS_BASE_URL : String := "https://api.marketstack.com/v1/eod"

/-- The state of one `aiohttp.ClientSession`: only whether it has been
closed matters to this client. -/
structure SessionState where
  closed : Bool
deriving DecidableEq, Repr

/-- The mutable attributes of a `_MarketstackClient` instance. -/
structure ClientState where
  base_url : String
  plan : MarketstackPlan
  access_key : String
  client_session : Option SessionState
deriving DecidableEq, Repr

/-- Embeds `_MarketstackClient.__init__`. -/
def _MarketstackClient_init (base_url : String) (access_key : String)
    (plan : MarketstackPlan) : ClientState :=
  { base_url := base_url, plan := plan, access_key := access_key,
    client_session := none }

/-- Result of running a constructor: the instance plus the warnings emitted
by `warnings.warn` during construction. -/
structure ConstructResult where
  state : ClientState
  warnings : List String
deriving DecidableEq, Repr

/-- Embeds `HttpMarketstackClient.__init__`. -/
def HttpMarketstackClient_init (access_key : String) (plan : MarketstackPlan) :
    ConstructResult :=
  ⟨_MarketstackClient_init HTTP_BASE_URL access_key plan, []⟩

/-- Embeds `HttpsMarketstackClient.__init__`: warns on the free plan, then calls
`super().__init__(HTTP_BASE_URL, access_key, plan)` — the source passes
`HTTP_BASE_URL`, not `HTTPS_BASE_URL`. -/
def HttpsMarketstackClient_init (access_key : String) (plan : MarketstackPlan) :
    ConstructResult :=
  ⟨_MarketstackClient_init HTTP_BASE_URL access_key plan,
   if plan = .FREE then ["Using the free plan isn't likely to work over SSL."]
   else []⟩

/-- Embeds `_MarketstackClient.__aenter__`: create a fresh open session. -/
def aenter (st : ClientState) : ClientState :=
  { st with client_session := some ⟨false⟩ }

/-- Embeds `_MarketstackClient.__aexit__`, i.e. `await self._session.close()`.  The
`_session` property raises the not-initialized `RuntimeError` when no
session was ever created; otherwise the session is closed but the attribute
is NOT reset to `None`. -/
def aexit (st : ClientState) : Except Fault ClientState :=
  match st.client_session with
  | none => .error .notInitialized
  | some _ => .ok { st with client_session := some ⟨true⟩ }

/-- One GET request as the client assembles it: target url and query
parameters in order. -/
structure Request where
  url : String
  params : List (String × String)
deriving DecidableEq, Repr

/-- The transport collaborator, scripted: the `i`-th GET issued by a query
receives status code `(server i).1` and parsed body `(server i).2`. -/
abbrev Server := Nat → Nat × EodResponse

/-- The observable outcome of one query-method call: the value returned or
fault raised, the GET requests actually issued in order, the error-level log
records emitted, and the client state afterwards. -/
structure Outcome (α : Type) where
  result : Except Fault α
  requests : List Request
  logs : List String
  finalState : ClientState
deriving Repr

/-- Embeds `_MarketstackClient._deserialize_eod`: copy every field, parsing the
date string; `none` models the `ValueError` from `fromisoformat` on a
malformed date. -/
def _deserialize_eod (raw_eod : RawEod) : Option Eod :=
  (fromisoformat_date raw_eod.date).map fun d =>
    { «open» := raw_eod.«open», high := raw_eod.high, low := raw_eod.low,
      close := raw_eod.close, volume := raw_eod.volume,
      split_factor := raw_eod.split_factor, dividend := raw_eod.dividend,
      symbol := raw_eod.symbol, exchange := raw_eod.exchange, date := d }

/-- Deserialize a list of rows left to right, failing at the first malformed
date exactly as the Python generator comprehension would. -/
def deserialize_all (rows : List RawEod) : Except Fault (List Eod) :=
  match rows with
  | [] => .ok []
  | r :: rs =>
    match _deserialize_eod r with
    | none => .error .valueError
    | some e => (deserialize_all rs).map fun es => e :: es

/-- The query parameters of `_get_eod_range_helper`, in source order. -/
def range_params (st : ClientState) (symbols : List String)
    (date_range : Date × Date) (exchange_filter : Option String) :
    List (String × String) :=
  [("access_key", st.access_key),
   ("symbols", String.intercalate "," symbols),
   ("date_from", _format_date date_range.1),
   ("date_to", _format_date date_range.2),
   ("limit", "1000")] ++
  (match exchange_filter with
   | none => []
   | some e => [("exchange", e)])

/-- The query parameters of the direct (date-scoped) branch of `get_eod`,
in source order. -/
def eod_params (st : ClientState) (symbols : List String)
    (exchange_filter : Option String) : List (String × String) :=
  [("access_key", st.access_key),
   ("symbols", String.intercalate "," symbols)] ++
  (match exchange_filter with
   | none => []
   | some e => [("exchange", e)])

/-- The `for _ in range(max_requests)` loop of `_get_eod_range_helper`.
`i` numbers the next request, `remaining` is the loop iterations left, `acc`
the rows yielded so far.  Each iteration performs `sess.get` (which raises
`sessionClosed` on a closed session before any traffic), classifies the
response, yields the page's rows, recomputes
`limit * offset + count` from the page's own pagination and breaks when it
equals `total`.  Returns the rows (or fault) together with the list of
requests issued. -/
def range_loop (sess : SessionState) (server : Server) (req : Request)
    (i : Nat) (remaining : Nat) (acc : List RawEod) :
    Except Fault (List RawEod) × List Request :=
  match remaining with
  | 0 => (.ok acc, [])
  | r + 1 =>
    if sess.closed then (.error .sessionClosed, [])
    else
      let status := (server i).1
      let body := (server i).2
      match _handle_if_error ⟨status⟩ body with
      | .error f => (.error f, [req])
      | .ok _ =>
        let acc' := acc ++ body.data
        let p := body.pagination
        let total_so_far := p.limit * p.offset + p.count
        if total_so_far = p.total then (.ok acc', [req])
        else
          let rest := range_loop sess server req (i + 1) r acc'
          (rest.1, req :: rest.2)

/-- The session state after a query method body ran: `async with
self._session as sess:` closes the session on exit of the block (aiohttp
`ClientSession.__aexit__` calls `close()`), on normal return and on
exception alike. -/
def close_session (st : ClientState) : ClientState :=
  { st with client_session := some ⟨true⟩ }

/-- Embeds `_MarketstackClient.get_eod_range` (driving `_get_eod_range_helper` to
completion): fails with the not-initialized fault when no session exists,
otherwise runs the pagination loop against `self.base_url` and deserializes
every collected row. -/
def get_eod_range (st : ClientState) (server : Server) (symbols : List String)
    (date_range : Date × Date) (exchange_filter : Option String)
    (max_requests : Nat) : Outcome (List Eod) :=
  match st.client_session with
  | none => ⟨.error .notInitialized, [], [], st⟩
  | some sess =>
    let req : Request := ⟨st.base_url, range_params st symbols date_range exchange_filter⟩
    let run := range_loop sess server req 0 max_requests []
    let res : Except Fault (List Eod) :=
      match run.1 with
      | .error f => .error f
      | .ok rows => deserialize_all rows
    ⟨res, run.2, [], close_session st⟩

/-- Embeds `_MarketstackClient.get_eod`: below `BASIC` delegate to
`get_eod_range(symbols, (date, date), exchange_filter)` with the default
`max_requests = 10`; otherwise issue one GET to
`{base_url}/{formatted date}`, classify, log an error-level record when the
row count differs from 1, and deserialize every row. -/
def get_eod (st : ClientState) (server : Server) (symbols : List String)
    (transaction_date : Date) (exchange_filter : Option String) :
    Outcome (List Eod) :=
  if st.plan.toNat < MarketstackPlan.BASIC.toNat then
    get_eod_range st server symbols (transaction_date, transaction_date)
      exchange_filter 10
  else
    match st.client_session with
    | none => ⟨.error .notInitialized, [], [], st⟩
    | some sess =>
      let url := st.base_url ++ "/" ++ _format_date transaction_date
      let req : Request := ⟨url, eod_params st symbols exchange_filter⟩
      if sess.closed then ⟨.error .sessionClosed, [], [], close_session st⟩
      else
        let status := (server 0).1
        let body := (server 0).2
        match _handle_if_error ⟨status⟩ body with
        | .error f => ⟨.error f, [req], [], close_session st⟩
        | .ok _ =>
          let logs :=
            if body.data.length ≠ 1 then
              ["Length of the response data is not 1"]
            else []
          ⟨deserialize_all body.data, [req], logs, close_session st⟩

/-- The quantity `total_so_far` as the loop computes it from one page's pagination:
`limit * offset + count`. -/
def total_so_far (p : Pagination) : Nat := p.limit * p.offset + p.count

/-- The rows of `n` consecutive pages starting at request index `i`, in the
order the loop yields them. -/
def pages_data (server : Server) (i : Nat) : Nat → List RawEod
  | 0 => []
  | n + 1 => (server i).2.data ++ pages_data server (i + 1) n

/-- A sample raw row used as concrete input by the witnesses. -/
def sampleRow : RawEod := ⟨1, 2, 3, 4, 5, 6, 7, "AMZN", "XNAS", "2023-07-17"⟩

/-- The sample row, deserialized. -/
def sampleEod : Eod := ⟨1, 2, 3, 4, 5, 6, 7, "AMZN", "XNAS", ⟨2023, 7, 17⟩⟩

/-- A successful single-row page that reports full enumeration
(`limit * offset + count = 1 = total`). -/
def samplePage : EodResponse := ⟨⟨1000, 0, 1, 1⟩, [sampleRow], none⟩

/-- A server answering every request with `samplePage`. -/
def sampleServer : Server := fun _ => (200, samplePage)

/-- A successful single-row page that always reports more to come
(`limit * offset + count = 1 ≠ 5 = total`). -/
def morePage : EodResponse := ⟨⟨1, 0, 1, 5⟩, [sampleRow], none⟩

/-- A server answering every request with `morePage`: `seen` never reaches
`total`. -/
def moreServer : Server := fun _ => (200, morePage)

/-- A body with no rows and no error envelope. -/
def emptyBody : EodResponse := ⟨⟨1000, 0, 0, 0⟩, [], none⟩

/-- A freshly entered client on the HTTP endpoint with the basic plan. -/
def sampleClient : ClientState :=
  aenter (_MarketstackClient_init HTTP_BASE_URL "k" .BASIC)

/-- A freshly entered client on the HTTP endpoint with the free plan. -/
def sampleFreeClient : ClientState :=
  aenter (_MarketstackClient_init HTTP_BASE_URL "k" .FREE)

/-- A constructed client that was never entered. -/
def sampleUninitClient : ClientState :=
  _MarketstackClient_init HTTP_BASE_URL "k" .BASIC

/-- The basic-plan client after its scope was entered and exited: the
session attribute still holds the (now closed) session. -/
def sampleExitedClient : ClientState :=
  { sampleClient with client_session := some ⟨true⟩ }

/-- A successful page carrying two rows (a row count other than one). -/
def twoRowPage : EodResponse := ⟨⟨1000, 0, 2, 2⟩, [sampleRow, sampleRow], none⟩

/-- A server answering every request with `twoRowPage`. -/
def twoRowServer : Server := fun _ => (200, twoRowPage)

end Aiomarketstack

namespace Aiomarketstack

/-! Digit arithmetic lemmas for the date round trip. -/

theorem digitChar_toNat (k : Nat) : (digitChar k).toNat = 48 + k % 10 := by
  unfold digitChar
  have h : k % 10 < 10 := Nat.mod_lt _ (by omega)
  generalize hm : k % 10 = m
  rw [hm] at h
  interval_cases m <;> rfl

theorem digitVal_digitChar (k : Nat) : digitVal (digitChar k) = k % 10 := by
  simp [digitVal, digitChar_toNat]

theorem isDigitChar_digitChar (k : Nat) : isDigitChar (digitChar k) = true := by
  simp only [isDigitChar, digitChar_toNat, decide_eq_true_eq]
  constructor <;> omega

/-- Formatting a valid date and parsing the result recovers the date. -/
theorem fromisoformat_format_date (d : Date) (hd : ValidDate d) :
    fromisoformat_date (_format_date d) = some d := by
  obtain ⟨h1, h2, h3, h4, h5, h6⟩ := hd
  have hmonth : d.month ≤ 99 := by omega
  have hday : d.day ≤ 31 := by
    have : days_in_month d.year d.month ≤ 31 := by
      unfold days_in_month; split <;> [split; split] <;> omega
    omega
  show fromisoformat_date (String.mk
    [digitChar (d.year / 1000), digitChar (d.year / 100),
     digitChar (d.year / 10), digitChar d.year, '-',
     digitChar (d.month / 10), digitChar d.month, '-',
     digitChar (d.day / 10), digitChar d.day]) = some d
  unfold fromisoformat_date
  simp only [String.toList, isDigitChar_digitChar, digitVal_digitChar]
  have hy : d.year / 1000 % 10 * 1000 + d.year / 100 % 10 * 100 +
      d.year / 10 % 10 * 10 + d.year % 10 = d.year := by omega
  have hm : d.month / 10 % 10 * 10 + d.month % 10 = d.month := by omega
  have hdd : d.day / 10 % 10 * 10 + d.day % 10 = d.day := by omega
  simp only [hy, hm, hdd]
  simp [h1, h3, h4, h5, h6]

/-! Lemmas about the pagination loop. -/

/-- Every request the loop issues goes to the one prepared request: same
url, same parameters. -/
theorem range_loop_requests_eq (sess : SessionState) (server : Server)
    (req : Request) :
    ∀ (n i : Nat) (acc : List RawEod) (x : Request),
      x ∈ (range_loop sess server req i n acc).2 → x = req := by
  intro n
  induction n with
  | zero => intro i acc x hx; simp [range_loop] at hx
  | succ n ih =>
    intro i acc x hx
    rw [range_loop] at hx
    by_cases hc : sess.closed
    · simp [hc] at hx
    · simp only [hc, if_false, Bool.false_eq_true] at hx
      revert hx
      split
      · intro hx; simpa using hx
      · split
        · intro hx; simpa using hx
        · intro hx
          rcases List.mem_cons.mp hx with h | h
          · exact h
          · exact ih (i + 1) _ x h

/-- The loop never issues more than `remaining` requests. -/
theorem range_loop_length_le (sess : SessionState) (server : Server)
    (req : Request) :
    ∀ (n i : Nat) (acc : List RawEod),
      (range_loop sess server req i n acc).2.length ≤ n := by
  intro n
  induction n with
  | zero => intro i acc; simp [range_loop]
  | succ n ih =>
    intro i acc
    rw [range_loop]
    by_cases hc : sess.closed
    · simp [hc]
    · simp only [hc, if_false, Bool.false_eq_true]
      split
      · simp
      · split
        · simp
        · simpa using ih (i + 1) _

/-- With an open session and at least one iteration left, the loop issues at
least one request. -/
theorem range_loop_length_pos (sess : SessionState) (server : Server)
    (req : Request) (n i : Nat) (acc : List RawEod)
    (hopen : sess.closed = false) :
    1 ≤ (range_loop sess server req i (n + 1) acc).2.length := by
  rw [range_loop]
  simp only [hopen, Bool.false_eq_true, if_false]
  split
  · simp
  · split
    · simp
    · simp

/-- With an open session, when the page at index `i` is successful and its
pagination already reports full enumeration, the loop stops after that one
request and returns the accumulated rows plus that page's rows. -/
theorem range_loop_stop (sess : SessionState) (server : Server)
    (req : Request) (n i : Nat) (acc : List RawEod)
    (hopen : sess.closed = false)
    (hstatus : (server i).1 = 200)
    (hdone : total_so_far (server i).2.pagination = (server i).2.pagination.total) :
    range_loop sess server req i (n + 1) acc
      = (.ok (acc ++ (server i).2.data), [req]) := by
  rw [range_loop]
  simp only [hopen, Bool.false_eq_true, if_false]
  have hok : _handle_if_error ⟨(server i).1⟩ (server i).2 = .ok () := by
    simp [_handle_if_error, hstatus]
  rw [hok]
  simp only [total_so_far] at hdone
  simp [hdone]

/-- With an open session and `n` consecutive successful pages whose
pagination never reports full enumeration, the loop runs all `n` iterations,
collects every page's rows in order, and issues exactly `n` identical
requests. -/
theorem range_loop_never_done (sess : SessionState) (server : Server)
    (req : Request) :
    ∀ (n i : Nat) (acc : List RawEod),
      sess.closed = false →
      (∀ j, j < n → (server (i + j)).1 = 200 ∧
        total_so_far (server (i + j)).2.pagination
          ≠ (server (i + j)).2.pagination.total) →
      range_loop sess server req i n acc
        = (.ok (acc ++ pages_data server i n), List.replicate n req) := by
  intro n
  induction n with
  | zero => intro i acc _ _; simp [range_loop, pages_data]
  | succ n ih =>
    intro i acc hopen hpages
    obtain ⟨hstatus, hne⟩ := by
      have := hpages 0 (Nat.succ_pos n)
      simpa using this
    rw [range_loop]
    simp only [hopen, Bool.false_eq_true, if_false]
    have hok : _handle_if_error ⟨(server i).1⟩ (server i).2 = .ok () := by
      simp [_handle_if_error, hstatus]
    rw [hok]
    simp only [total_so_far] at hne
    simp only [hne, if_false]
    rw [ih (i + 1) (acc ++ (server i).2.data) hopen]
    · simp [pages_data, List.replicate_succ]
    · intro j hj
      have := hpages (j + 1) (by omega)
      simpa [Nat.add_assoc, Nat.add_comm 1 j] using this

/-- C1: the claim says the classifier dispatches on the envelope's `code`
field, mapping the listed codes (among them `resource_not_found` under 404)
to their distinct kinds.  The source instead looks up
`err_response["message"]` in the table, and the 404 sub-key is
`"404_not_found"`: on a real envelope carrying `code =
"invalid_access_key"` with its human-readable message, the classifier falls
through to the generic unauthorized kind; the mapped kinds are produced only
when the listed strings appear in the `message` field; the result never
depends on the `code` field at all; and the code `"resource_not_found"`
falls through to the generic not-found kind under 404. -/
theorem C1_classifier_dispatches_on_message_not_code :
    (∀ (p : Pagination) (rows : List RawEod) (c c' m : String) (status : Nat),
      _handle_if_error ⟨status⟩ ⟨p, rows, some ⟨c, m⟩⟩
        = _handle_if_error ⟨status⟩ ⟨p, rows, some ⟨c', m⟩⟩) ∧
    _handle_if_error ⟨401⟩
        ⟨⟨1000, 0, 0, 0⟩, [],
         some ⟨"invalid_access_key",
               "You have not supplied a valid API Access Key."⟩⟩
      = .error (.apiError (.unauthorized ⟨401⟩)) ∧
    _handle_if_error ⟨401⟩
        ⟨⟨1000, 0, 0, 0⟩, [], some ⟨"x", "invalid_access_key"⟩⟩
      = .error (.apiError (.invalidAccessKey ⟨401⟩)) ∧
    _handle_if_error ⟨404⟩
        ⟨⟨1000, 0, 0, 0⟩, [],
         some ⟨"resource_not_found", "resource_not_found"⟩⟩
      = .error (.apiError (.notFound ⟨404⟩)) ∧
    _handle_if_error ⟨404⟩
        ⟨⟨1000, 0, 0, 0⟩, [], some ⟨"404_not_found", "404_not_found"⟩⟩
      = .error (.apiError (.resourceNotFound ⟨404⟩)) :=
  ⟨fun _ _ _ _ _ _ => rfl, rfl, rfl, rfl, rfl⟩

/-- C2 counterexample: the claim asserts the protocol-violation fault for
every non-200 response without an error envelope, "regardless of whether the
status code is one of the recognized ones" — but on status 418 with no
envelope the source raises the unhandled-response kind before ever looking
for the envelope. -/
theorem C2_counterexample_unrecognized_status :
    _handle_if_error ⟨418⟩ emptyBody
      = .error (.apiError (.unhandledResponse ⟨418⟩)) ∧
    _handle_if_error ⟨418⟩ emptyBody ≠ .error .protocolViolation := by
  refine ⟨rfl, ?_⟩
  intro h
  rw [show _handle_if_error ⟨418⟩ emptyBody
        = .error (.apiError (.unhandledResponse ⟨418⟩)) from rfl] at h
  simp at h

/-- C2 (amended): for every response whose status code is one of the
recognized failure codes (401, 403, 404, 429, 500) and whose body carries no
error envelope, classification raises the protocol-violation fault. -/
theorem C2_recognized_status_missing_envelope (status : Nat)
    (body : EodResponse) (hs : status_in_err_map status = true)
    (hb : body.error = none) :
    _handle_if_error ⟨status⟩ body = .error .protocolViolation := by
  have h200 : status ≠ 200 := by
    simp only [status_in_err_map, decide_eq_true_eq] at hs
    rcases hs with h | h | h | h | h <;> omega
  simp [_handle_if_error, h200, hs, hb]

/-- Witness for C2's amended theorem at status 401 with an envelope-free
body. -/
theorem C2_recognized_status_missing_envelope_witness :
    status_in_err_map 401 = true ∧ emptyBody.error = none ∧
    _handle_if_error ⟨401⟩ emptyBody = .error .protocolViolation :=
  ⟨rfl, rfl, C2_recognized_status_missing_envelope 401 emptyBody rfl rfl⟩

/-- C3: after each page the loop recomputes `limit * offset + count` from
that page's own pagination and stops exactly when it equals the reported
`total`: with an open session and a successful page at index `i`, if the
recomputed value equals `total` the loop returns after that single request;
if it differs (and budget remains) a second request is issued; and a ranged
query whose first page reports pagination `{limit 1000, offset 0, count 1,
total 1}` issues exactly one request. -/
theorem C3_stopping_rule (sess : SessionState) (server : Server)
    (req : Request) (i r : Nat) (acc : List RawEod)
    (hopen : sess.closed = false) (hstatus : (server i).1 = 200) :
    (total_so_far (server i).2.pagination = (server i).2.pagination.total →
      range_loop sess server req i (r + 1) acc
        = (.ok (acc ++ (server i).2.data), [req])) ∧
    (total_so_far (server i).2.pagination ≠ (server i).2.pagination.total →
      2 ≤ (range_loop sess server req i (r + 2) acc).2.length) ∧
    (∀ (st : ClientState) (symbols : List String) (dr : Date × Date)
        (ef : Option String) (m : Nat),
      st.client_session = some ⟨false⟩ → 1 ≤ m →
      (server 0).1 = 200 → (server 0).2.pagination = ⟨1000, 0, 1, 1⟩ →
      (get_eod_range st server symbols dr ef m).requests.length = 1) := by
  refine ⟨range_loop_stop sess server req r i acc hopen hstatus, ?_, ?_⟩
  · intro hne
    rw [range_loop]
    simp only [hopen, Bool.false_eq_true, if_false]
    have hok : _handle_if_error ⟨(server i).1⟩ (server i).2 = .ok () := by
      simp [_handle_if_error, hstatus]
    rw [hok]
    simp only [total_so_far] at hne
    simp only [hne, if_false]
    have := range_loop_length_pos sess server req r (i + 1)
      (acc ++ (server i).2.data) hopen
    simpa using this
  · intro st symbols dr ef m hsess hm h0 hp
    obtain ⟨k, rfl⟩ : ∃ k, m = k + 1 := ⟨m - 1, by omega⟩
    simp only [get_eod_range, hsess]
    rw [range_loop_stop _ _ _ k 0 [] rfl h0 (by rw [hp]; rfl)]
    rfl

/-- Witness for C3 on the one-page sample server. -/
theorem C3_stopping_rule_witness :
    (⟨false⟩ : SessionState).closed = false ∧
    (sampleServer 0).1 = 200 ∧
    total_so_far (sampleServer 0).2.pagination
      = (sampleServer 0).2.pagination.total ∧
    (get_eod_range sampleClient sampleServer ["AMZN"]
        (⟨2023, 7, 17⟩, ⟨2023, 7, 17⟩) none 10).requests.length = 1 :=
  ⟨rfl, rfl, rfl,
   (C3_stopping_rule ⟨false⟩ sampleServer ⟨HTTP_BASE_URL, []⟩ 0 0 [] rfl
     rfl).2.2 sampleClient ["AMZN"] (⟨2023, 7, 17⟩, ⟨2023, 7, 17⟩) none 10
     rfl (by omega) rfl rfl⟩

/-- C4: on an entered client with budget `max_requests = N`, if every one of
the first `N` pages is successful and never reports full enumeration, the
ranged query issues exactly `N` requests and returns, without raising, the
deserialization of exactly the rows those `N` pages carried; and whatever
the page sequence, it never issues more than `N` requests. -/
theorem C4_request_budget (st : ClientState) (server : Server)
    (symbols : List String) (dr : Date × Date) (ef : Option String)
    (N : Nat) (es : List Eod)
    (hsess : st.client_session = some ⟨false⟩)
    (hok : ∀ j, j < N → (server j).1 = 200 ∧
      total_so_far (server j).2.pagination ≠ (server j).2.pagination.total)
    (hdes : deserialize_all (pages_data server 0 N) = .ok es) :
    (get_eod_range st server symbols dr ef N).requests.length = N ∧
    (get_eod_range st server symbols dr ef N).result = .ok es ∧
    ∀ (st' : ClientState) (server' : Server),
      (get_eod_range st' server' symbols dr ef N).requests.length ≤ N := by
  have hrun := range_loop_never_done ⟨false⟩ server
    ⟨st.base_url, range_params st symbols dr ef⟩ N 0 [] rfl
    (by intro j hj; simpa using hok j hj)
  refine ⟨?_, ?_, ?_⟩
  · simp only [get_eod_range, hsess]
    rw [hrun]
    simp
  · simp only [get_eod_range, hsess]
    rw [hrun]
    simpa using hdes
  · intro st' server'
    rcases h : st'.client_session with _ | sess
    · simp [get_eod_range, h]
    · simp only [get_eod_range, h]
      exact range_loop_length_le sess server' _ N 0 []

/-- Witness for C4 at `N = 3` against a server whose pages always report
`seen = 1 ≠ 5 = total`. -/
theorem C4_request_budget_witness :
    sampleClient.client_session = some ⟨false⟩ ∧
    (∀ j, j < 3 → (moreServer j).1 = 200 ∧
      total_so_far (moreServer j).2.pagination
        ≠ (moreServer j).2.pagination.total) ∧
    deserialize_all (pages_data moreServer 0 3)
      = .ok [sampleEod, sampleEod, sampleEod] ∧
    (get_eod_range sampleClient moreServer ["AMZN"]
        (⟨2023, 7, 17⟩, ⟨2023, 7, 17⟩) none 3).requests.length = 3 ∧
    (get_eod_range sampleClient moreServer ["AMZN"]
        (⟨2023, 7, 17⟩, ⟨2023, 7, 17⟩) none 3).result
      = .ok [sampleEod, sampleEod, sampleEod] := by
  have h := C4_request_budget sampleClient moreServer ["AMZN"]
    (⟨2023, 7, 17⟩, ⟨2023, 7, 17⟩) none 3 [sampleEod, sampleEod, sampleEod]
    rfl (by intro j hj; exact ⟨rfl, by simp [moreServer, morePage, total_so_far]⟩)
    rfl
  exact ⟨rfl, fun j hj => ⟨rfl, by simp [moreServer, morePage, total_so_far]⟩,
    rfl, h.1, h.2.1⟩

/-- C5: on a client whose plan is below `BASIC`, the single-date query is
exactly the ranged query over `(date, date)` with the default request
budget, and every request it issues targets the collection endpoint
`base_url` (never the date-scoped `base_url/<date>` endpoint). -/
theorem C5_free_plan_delegates_to_range (st : ClientState) (server : Server)
    (symbols : List String) (d : Date) (ef : Option String)
    (hplan : st.plan.toNat < MarketstackPlan.BASIC.toNat) :
    get_eod st server symbols d ef
      = get_eod_range st server symbols (d, d) ef 10 ∧
    ∀ req ∈ (get_eod st server symbols d ef).requests,
      req.url = st.base_url := by
  have heq : get_eod st server symbols d ef
      = get_eod_range st server symbols (d, d) ef 10 := by
    simp [get_eod, hplan]
  refine ⟨heq, ?_⟩
  rw [heq]
  intro req hreq
  rcases h : st.client_session with _ | sess
  · simp [get_eod_range, h] at hreq
  · simp only [get_eod_range, h] at hreq
    have := range_loop_requests_eq sess server
      ⟨st.base_url, range_params st symbols (d, d) ef⟩ 10 0 [] req hreq
    rw [this]

/-- Witness for C5 on the free-plan sample client. -/
theorem C5_free_plan_delegates_to_range_witness :
    sampleFreeClient.plan.toNat < MarketstackPlan.BASIC.toNat ∧
    get_eod sampleFreeClient sampleServer ["AMZN"] ⟨2023, 7, 17⟩ none
      = get_eod_range sampleFreeClient sampleServer ["AMZN"]
          (⟨2023, 7, 17⟩, ⟨2023, 7, 17⟩) none 10 :=
  ⟨by decide,
   (C5_free_plan_delegates_to_range sampleFreeClient sampleServer ["AMZN"]
     ⟨2023, 7, 17⟩ none (by decide)).1⟩

/-- On a client whose stored session is closed, a ranged query with at least
one budgeted request fails with the session-closed fault before issuing any
request. -/
theorem get_eod_range_closed_session (st : ClientState) (server : Server)
    (symbols : List String) (dr : Date × Date) (ef : Option String) (m : Nat)
    (h : st.client_session = some ⟨true⟩) (hm : 1 ≤ m) :
    (get_eod_range st server symbols dr ef m).result = .error .sessionClosed ∧
    (get_eod_range st server symbols dr ef m).requests = [] := by
  obtain ⟨k, rfl⟩ : ∃ k, m = k + 1 := ⟨m - 1, by omega⟩
  simp only [get_eod_range, h]
  rw [range_loop]
  simp

/-- C6 counterexample: after the scope is exited the session attribute still
holds the (closed) session, so a query fails with aiohttp's session-closed
`RuntimeError`, not with the distinct not-initialized condition the claim
asserts for invocations after exit. -/
theorem C6_counterexample_after_exit :
    aexit sampleClient = .ok sampleExitedClient ∧
    (get_eod sampleExitedClient sampleServer ["AMZN"] ⟨2023, 7, 17⟩
        none).result = .error .sessionClosed ∧
    (get_eod sampleExitedClient sampleServer ["AMZN"] ⟨2023, 7, 17⟩
        none).requests = [] ∧
    (Except.error .sessionClosed : Except Fault (List Eod))
      ≠ .error .notInitialized := by
  refine ⟨rfl, rfl, rfl, ?_⟩
  intro h
  simp at h

/-- C6 (amended): a query method invoked before the scope is entered fails
immediately with the not-initialized condition and issues no request; a
query method invoked after the scope is exited (with at least one budgeted
request) also fails before issuing any request, but with the transport's
session-closed fault rather than the not-initialized condition. -/
theorem C6_outside_scope_fails_fast (st : ClientState) (server : Server)
    (symbols : List String) (d : Date) (dr : Date × Date)
    (ef : Option String) (m : Nat) :
    (st.client_session = none →
      get_eod st server symbols d ef = ⟨.error .notInitialized, [], [], st⟩ ∧
      get_eod_range st server symbols dr ef m
        = ⟨.error .notInitialized, [], [], st⟩) ∧
    (st.client_session = some ⟨true⟩ → 1 ≤ m →
      ((get_eod st server symbols d ef).result = .error .sessionClosed ∧
       (get_eod st server symbols d ef).requests = []) ∧
      ((get_eod_range st server symbols dr ef m).result
          = .error .sessionClosed ∧
       (get_eod_range st server symbols dr ef m).requests = [])) := by
  constructor
  · intro h
    constructor
    · by_cases hp : st.plan.toNat < MarketstackPlan.BASIC.toNat <;>
        simp [get_eod, get_eod_range, h, hp]
    · simp [get_eod_range, h]
  · intro h hm
    refine ⟨?_, get_eod_range_closed_session st server symbols dr ef m h hm⟩
    by_cases hp : st.plan.toNat < MarketstackPlan.BASIC.toNat
    · have := get_eod_range_closed_session st server symbols (d, d) ef 10 h
        (by omega)
      simpa [get_eod, hp] using this
    · simp [get_eod, hp, h]

/-- Witness for C6's amended theorem: a never-entered client and an
entered-then-exited client, both queried against the sample server. -/
theorem C6_outside_scope_fails_fast_witness :
    (get_eod sampleUninitClient sampleServer ["AMZN"] ⟨2023, 7, 17⟩ none
      = ⟨.error .notInitialized, [], [], sampleUninitClient⟩) ∧
    (get_eod sampleExitedClient sampleServer ["AMZN"] ⟨2023, 7, 17⟩
        none).result = .error .sessionClosed := by
  have h1 := (C6_outside_scope_fails_fast sampleUninitClient sampleServer
    ["AMZN"] ⟨2023, 7, 17⟩ (⟨2023, 7, 17⟩, ⟨2023, 7, 17⟩) none 10).1 rfl
  have h2 := (C6_outside_scope_fails_fast sampleExitedClient sampleServer
    ["AMZN"] ⟨2023, 7, 17⟩ (⟨2023, 7, 17⟩, ⟨2023, 7, 17⟩) none 10).2 rfl
    (by omega)
  exact ⟨h1.1, h2.1.1⟩

/-- C7: the spec says the transport session is released only on scope exit,
so two successive queries inside one scope both succeed.  In the source each
query method wraps the shared session in `async with self._session`, whose
exit closes it: on a freshly entered basic-plan client the first query
succeeds and leaves the stored session closed, and the second query then
fails with the session-closed fault. -/
theorem C7_query_method_closes_shared_session :
    (get_eod sampleClient sampleServer ["AMZN"] ⟨2023, 7, 17⟩ none).result
      = .ok [sampleEod] ∧
    (get_eod sampleClient sampleServer ["AMZN"] ⟨2023, 7, 17⟩
        none).finalState.client_session = some ⟨true⟩ ∧
    (get_eod (get_eod sampleClient sampleServer ["AMZN"] ⟨2023, 7, 17⟩
          none).finalState
        sampleServer ["AMZN"] ⟨2023, 7, 17⟩ none).result
      = .error .sessionClosed :=
  ⟨rfl, rfl, rfl⟩

/-- C8: constructing the HTTPS client variant on the free plan emits the
non-fatal warning and construction succeeds — but the constructor passes
`HTTP_BASE_URL` to `super().__init__`, so the client is configured with the
http-scheme eod URL, not the https-scheme one the claim asserts (the HTTP
variant uses the http-scheme URL as claimed). -/
theorem C8_https_variant_configured_with_http_url :
    (HttpsMarketstackClient_init "k" .FREE).warnings
      = ["Using the free plan isn't likely to work over SSL."] ∧
    (HttpsMarketstackClient_init "k" .BASIC).warnings = [] ∧
    (HttpsMarketstackClient_init "k" .FREE).state
      = _MarketstackClient_init HTTP_BASE_URL "k" .FREE ∧
    (HttpsMarketstackClient_init "k" .FREE).state.base_url = HTTP_BASE_URL ∧
    HTTP_BASE_URL ≠ HTTPS_BASE_URL ∧
    (HttpMarketstackClient_init "k" .FREE).state.base_url = HTTP_BASE_URL := by
  refine ⟨rfl, rfl, rfl, rfl, ?_, rfl⟩
  decide

/-- C9 counterexample: the claim makes the diagnostic condition "a number
of rows different from one (per requested symbol)", but the source checks
`len(body["data"]) != 1` — the total row count.  On a basic-plan client
querying the two symbols AMZN and MSFT, a successful response carrying a
single row (no longer one row per requested symbol) produces no log record
at all: the call succeeds and returns the one row, and the log list is
empty, falsifying "the anomaly is logged as a diagnostic". -/
theorem C9_counterexample_per_symbol_count_not_logged :
    (get_eod sampleClient sampleServer ["AMZN", "MSFT"] ⟨2023, 7, 17⟩
        none).result = .ok [sampleEod] ∧
    (get_eod sampleClient sampleServer ["AMZN", "MSFT"] ⟨2023, 7, 17⟩
        none).logs = [] ∧
    (sampleServer 0).2.data.length ≠ (["AMZN", "MSFT"] : List String).length := by
  refine ⟨rfl, rfl, ?_⟩
  decide

/-- C9 (amended): at plan `BASIC` or above, when the single-date query's
response is successful but its total number of rows differs from one (the
trigger the source actually tests, whatever the number of requested
symbols), the call still succeeds: the anomaly is recorded as the
error-level log line, exactly one request was issued, and every row that
came back is deserialized and returned. -/
theorem C9_row_count_anomaly_logged_not_fatal (st : ClientState)
    (server : Server) (symbols : List String) (d : Date) (ef : Option String)
    (es : List Eod)
    (hplan : ¬ st.plan.toNat < MarketstackPlan.BASIC.toNat)
    (hsess : st.client_session = some ⟨false⟩)
    (hstatus : (server 0).1 = 200)
    (hlen : (server 0).2.data.length ≠ 1)
    (hdes : deserialize_all (server 0).2.data = .ok es) :
    (get_eod st server symbols d ef).result = .ok es ∧
    (get_eod st server symbols d ef).logs
      = ["Length of the response data is not 1"] ∧
    (get_eod st server symbols d ef).requests.length = 1 := by
  have hok : _handle_if_error ⟨(server 0).1⟩ (server 0).2 = .ok () := by
    simp [_handle_if_error, hstatus]
  simp [get_eod, hplan, hsess, hok, hlen, hdes]

/-- Witness for C9: a two-row success page on the basic-plan client. -/
theorem C9_row_count_anomaly_logged_not_fatal_witness :
    ¬ sampleClient.plan.toNat < MarketstackPlan.BASIC.toNat ∧
    (twoRowServer 0).2.data.length ≠ 1 ∧
    (get_eod sampleClient twoRowServer ["AMZN"] ⟨2023, 7, 17⟩ none).result
      = .ok [sampleEod, sampleEod] ∧
    (get_eod sampleClient twoRowServer ["AMZN"] ⟨2023, 7, 17⟩ none).logs
      = ["Length of the response data is not 1"] := by
  have h := C9_row_count_anomaly_logged_not_fatal sampleClient twoRowServer
    ["AMZN"] ⟨2023, 7, 17⟩ none [sampleEod, sampleEod] (by decide) rfl rfl
    (by decide) rfl
  exact ⟨by decide, by decide, h.1, h.2.1⟩

/-- C10: deserializing a raw row whose date field is the `YYYY-MM-DD`
rendering of a (valid) date `d` succeeds and yields the record whose date is
exactly `d` and whose every other field is the corresponding field of the
raw row, unchanged. -/
theorem C10_format_parse_round_trip (d : Date) (raw : RawEod)
    (hd : ValidDate d) (hdate : raw.date = _format_date d) :
    _deserialize_eod raw
      = some ⟨raw.«open», raw.high, raw.low, raw.close, raw.volume,
              raw.split_factor, raw.dividend, raw.symbol, raw.exchange, d⟩ := by
  simp [_deserialize_eod, hdate, fromisoformat_format_date d hd]

/-- Witness for C10 at 2023-07-17 on the sample row. -/
theorem C10_format_parse_round_trip_witness :
    ValidDate ⟨2023, 7, 17⟩ ∧
    sampleRow.date = _format_date ⟨2023, 7, 17⟩ ∧
    _deserialize_eod sampleRow = some sampleEod :=
  ⟨by decide, rfl,
   C10_format_parse_round_trip ⟨2023, 7, 17⟩ sampleRow (by decide) rfl⟩

end Aiomarketstack
